import Mathlib

/-!
Verification of the `FieldDataProcessor` ETL pipeline
(`field_data_processor.py`): a shallow embedding of its data model
(pandas-style tables) and of its four stages — ingest, rename (column
swap), correct (absolute value + categorical remap) and enrich
(left join with a fetched weather-mapping table) — together with
theorems settling the specification's claims about them.
-/

set_option maxHeartbeats 1000000
set_option linter.unusedVariables false

/-- A cell value of a table: an integer, a string, or a null (pandas NaN). -/
inductive Value where
  | int (n : Int)
  | str (s : String)
  | null
deriving DecidableEq

/-- A pandas-style DataFrame: an ordered list of column names and a list of
rows, each row a list of cell values aligned with the columns. -/
structure DF where
  cols : List String
  rows : List (List Value)
deriving DecidableEq

/-- Well-formedness of a DataFrame: every row has exactly one cell per column. -/
def DF.WF (df : DF) : Prop := ∀ r ∈ df.rows, r.length = df.cols.length

instance (df : DF) : Decidable df.WF :=
  inferInstanceAs (Decidable (∀ r ∈ df.rows, r.length = df.cols.length))

/-- The error kinds the pipeline can surface (Python exception kinds). -/
inductive PErr where
  | keyError
  | indexError
  | typeError
  | attributeError
  | connectionError
  | queryError
  | networkError
deriving DecidableEq

/-- Index of the first column with the given name, if any
(`df.columns.get_loc`-style lookup; `none` models a pandas `KeyError`). -/
def findIdx : List String → String → Option Nat
  | [], _ => none
  | c :: cs, name => if c = name then some 0 else (findIdx cs name).map (· + 1)

/-- Length of the longest column name (used to bound the sentinel probing). -/
def maxLen (cols : List String) : Nat :=
  cols.foldr (fun c m => max c.length m) 0

/-- Fuel-indexed probing loop behind `probeTemp`: while the candidate name is
taken, append an underscore (`while temp_name in self.df.columns`). -/
def probeTempAux : Nat → List String → String → String
  | 0, _, t => t
  | fuel + 1, cols, t => if t ∈ cols then probeTempAux fuel cols (t ++ "_") else t

/-- The sentinel-name probe of `rename_columns`: starting from a seed name,
append underscores until the name collides with no existing column. -/
def probeTemp (cols : List String) (t : String) : String :=
  probeTempAux (maxLen cols + 1 - t.length) cols t

/-- Lookup with identity default over a string-to-string mapper,
as pandas `DataFrame.rename` applies a `columns=` dict: a name found as a
key is replaced by its value, any other name is kept unchanged. -/
def lookupS : List (String × String) → String → String
  | [], c => c
  | (k, v) :: rest, c => if k = c then v else lookupS rest c

/-- pandas `DataFrame.rename(columns=m)`: map every column name through the
mapper, silently keeping names that are not keys; rows are untouched. -/
def pdRename (m : List (String × String)) (df : DF) : DF :=
  { cols := df.cols.map (lookupS m), rows := df.rows }

/-- The two-entry Python dict literal `{k1: v1, k2: v2}`: when the two keys
coincide the later entry wins, as in Python. -/
def dict2 (k1 v1 k2 v2 : String) : List (String × String) :=
  if k1 = k2 then [(k1, v2)] else [(k1, v1), (k2, v2)]

/-- `FieldDataProcessor.rename_columns`: take the first key and the first
value of `columns_to_rename` (`list(d.keys())[0]`, `list(d.values())[0]`;
an empty dict raises an IndexError-kind), probe for an unused sentinel
name, then perform the two pandas renames that swap the two names. -/
def rename_columns (columns_to_rename : List (String × String)) (df : DF) :
    Except PErr DF :=
  match columns_to_rename with
  | [] => .error .indexError
  | (column1, column2) :: _ =>
    let temp_name := probeTemp df.cols "__temp_name_for_swap__"
    .ok (pdRename [(temp_name, column2)]
          (pdRename (dict2 column1 temp_name column2 column1) df))

/-- Name-level effect of the swap: `c1` and `c2` exchanged, others fixed. -/
def swapName (a b c : String) : String :=
  if c = a then b else if c = b then a else c

/- ### Sentinel probing lemmas -/

theorem length_le_maxLen {c : String} {cols : List String} :
    c ∈ cols → c.length ≤ maxLen cols := by
  induction cols with
  | nil =>
    intro h
    cases h
  | cons d ds ih =>
    intro h
    rcases List.mem_cons.mp h with h1 | h1
    · subst h1
      exact le_max_left _ _
    · exact le_trans (ih h1) (le_max_right _ _)

theorem probeTempAux_not_mem (fuel : Nat) (cols : List String) :
    ∀ t : String, maxLen cols < t.length + fuel → probeTempAux fuel cols t ∉ cols := by
  induction fuel with
  | zero =>
    intro t h hmem
    simp only [probeTempAux] at hmem
    have := length_le_maxLen hmem
    omega
  | succ fuel ih =>
    intro t h
    by_cases hmem : t ∈ cols
    · simp only [probeTempAux, if_pos hmem]
      apply ih
      have h1 : "_".length = 1 := rfl
      have hlen : (t ++ "_").length = t.length + 1 := by
        rw [String.length_append, h1]
      omega
    · simp only [probeTempAux, if_neg hmem]
      exact hmem

theorem probeTemp_not_mem (cols : List String) (t : String) :
    probeTemp cols t ∉ cols := by
  apply probeTempAux_not_mem
  omega

theorem swapName_self (a c : String) : swapName a a c = c := by
  unfold swapName
  split_ifs with h
  · exact h.symm
  · rfl

/- ### Swap lemmas -/

theorem swapName_left (a b : String) : swapName a b a = b := by
  unfold swapName
  by_cases h : a = b <;> simp [h]

theorem swapName_right (a b : String) : swapName a b b = a := by
  unfold swapName
  by_cases h : b = a <;> simp [h]

theorem swapName_other {a b c : String} (h1 : c ≠ a) (h2 : c ≠ b) :
    swapName a b c = c := by
  simp [swapName, h1, h2]

theorem swapName_swapName (a b c : String) :
    swapName a b (swapName a b c) = c := by
  unfold swapName
  split_ifs <;> simp_all

theorem swapName_injective {a b x y : String}
    (h : swapName a b x = swapName a b y) : x = y := by
  have hx := swapName_swapName a b x
  rw [h, swapName_swapName] at hx
  exact hx.symm

/-- One column name pushed through the two renames of the swap: provided the
sentinel differs from `c1` and from the name at hand, the net effect on
that name is the plain swap of `c1` and `c2`. -/
theorem swap_step (c1 c2 T c : String) (hT1 : c1 ≠ T) (hcT : c ≠ T) :
    lookupS [(T, c2)] (lookupS (dict2 c1 T c2 c1) c) = swapName c1 c2 c := by
  by_cases h12 : c1 = c2
  · subst h12
    have hinner : lookupS (dict2 c1 T c1 c1) c = c := by
      simp only [dict2, if_pos rfl, lookupS]
      split_ifs with h
      · exact h
      · rfl
    rw [hinner, swapName_self]
    simp only [lookupS]
    rw [if_neg (fun h => hcT h.symm)]
  · simp only [dict2, if_neg h12, lookupS]
    by_cases hc1 : c1 = c
    · rw [if_pos hc1, if_pos rfl, ← hc1, swapName_left]
    · by_cases hc2 : c2 = c
      · rw [if_neg hc1, if_pos hc2, if_neg (fun h => hT1 h.symm), ← hc2,
          swapName_right]
      · rw [if_neg hc1, if_neg hc2, if_neg (fun h => hcT h.symm),
          swapName_other (fun h => hc1 h.symm) (fun h => hc2 h.symm)]

/-- Core description of `rename_columns`: when both configured names are
present, the stage succeeds and its whole effect is the pointwise name
swap on the column list, with the rows untouched. -/
theorem rename_columns_eq_swap (c1 c2 : String) (rest : List (String × String))
    (df : DF) (h1 : c1 ∈ df.cols) (h2 : c2 ∈ df.cols) :
    rename_columns ((c1, c2) :: rest) df =
      .ok { cols := df.cols.map (swapName c1 c2), rows := df.rows } := by
  have hT : probeTemp df.cols "__temp_name_for_swap__" ∉ df.cols :=
    probeTemp_not_mem _ _
  unfold rename_columns
  simp only [pdRename, List.map_map]
  congr 2
  apply List.map_congr_left
  intro c hc
  exact swap_step c1 c2 _ c (fun h => hT (h ▸ h1)) (fun h => hT (h ▸ hc))

deriving instance DecidableEq for Except

/-- `df[name]` as a column read: the cell at the first index of `name` in
every row; reading an absent column is a pandas `KeyError`. -/
def DF.getColVals (df : DF) (name : String) : Except PErr (List Value) :=
  match findIdx df.cols name with
  | none => .error .keyError
  | some i => .ok (df.rows.map (fun r => r.getD i Value.null))

theorem findIdx_map_inj (g : String → String)
    (hg : ∀ x y, g x = g y → x = y) (l : List String) (a : String) :
    findIdx (l.map g) (g a) = findIdx l a := by
  induction l with
  | nil => rfl
  | cons c cs ih =>
    simp only [List.map_cons, findIdx]
    by_cases h : c = a
    · subst h
      rw [if_pos rfl, if_pos rfl]
    · rw [if_neg (fun hh => h (hg c a hh)), if_neg h, ih]

theorem getColVals_map_swap (c1 c2 a : String) (cols : List String)
    (rows : List (List Value)) :
    DF.getColVals ⟨cols.map (swapName c1 c2), rows⟩ (swapName c1 c2 a) =
      DF.getColVals ⟨cols, rows⟩ a := by
  unfold DF.getColVals
  rw [findIdx_map_inj (swapName c1 c2) (fun x y h => swapName_injective h) cols a]

/- ### Claims about the Rename stage -/

/-- Claim C10: `rename_columns` consults only the first key and the first
value of the configured `columns_to_rename` mapping; any additional entries
are silently ignored and have no effect on the dataset. -/
theorem rename_columns_uses_first_entry_only (c1 c2 : String)
    (rest : List (String × String)) (df : DF) :
    rename_columns ((c1, c2) :: rest) df = rename_columns [(c1, c2)] df := rfl

/-- Claim C2 counterexample: with the configured pair ("A", "B") and a
dataset whose columns are ["X", "Y"] (so both configured names are absent),
`rename_columns` does not fail at all: it returns the dataset unchanged,
contradicting the claim that it fails with a KeyError-kind error. -/
theorem rename_columns_absent_name_no_error :
    "A" ∉ (DF.mk ["X", "Y"] [[Value.int 1, Value.int 2]]).cols ∧
    rename_columns [("A", "B")] (DF.mk ["X", "Y"] [[Value.int 1, Value.int 2]]) =
      .ok (DF.mk ["X", "Y"] [[Value.int 1, Value.int 2]]) := by
  exact ⟨by decide, rfl⟩

/-- Claim C2 (amended): `rename_columns` never fails when the configured
mapping is nonempty — a configured name absent from the column set is
silently ignored by the pandas-style rename — and with an empty configured
mapping it fails with an IndexError-kind error. -/
theorem rename_columns_error_behavior (c1 c2 : String)
    (rest : List (String × String)) (df : DF) :
    (∃ df2, rename_columns ((c1, c2) :: rest) df = .ok df2) ∧
    rename_columns [] df = .error PErr.indexError :=
  ⟨⟨_, rfl⟩, rfl⟩

/-- Claim C3: for any dataset in which the two configured column names are
both present, applying `rename_columns` twice restores the original dataset
(column arrangement and rows alike). -/
theorem rename_columns_involution (c1 c2 : String) (rest : List (String × String))
    (df : DF) (h1 : c1 ∈ df.cols) (h2 : c2 ∈ df.cols) :
    (rename_columns ((c1, c2) :: rest) df).bind (rename_columns ((c1, c2) :: rest)) =
      .ok df := by
  rw [rename_columns_eq_swap c1 c2 rest df h1 h2]
  show rename_columns ((c1, c2) :: rest) ⟨df.cols.map (swapName c1 c2), df.rows⟩ =
    .ok df
  rw [rename_columns_eq_swap c1 c2 rest _
      (List.mem_map.mpr ⟨c2, h2, swapName_right c1 c2⟩)
      (List.mem_map.mpr ⟨c1, h1, swapName_left c1 c2⟩)]
  have hcols : (df.cols.map (swapName c1 c2)).map (swapName c1 c2) = df.cols := by
    rw [List.map_map]
    calc df.cols.map (swapName c1 c2 ∘ swapName c1 c2)
        = df.cols.map (fun a => a) :=
          List.map_congr_left (fun a _ => swapName_swapName c1 c2 a)
      _ = df.cols := List.map_id' df.cols
  rw [hcols]

/-- Claim C3 witness: the involution at a concrete three-column dataset with
the pair ("Crop_type", "Elevation"). -/
theorem rename_columns_involution_witness :
    (rename_columns [("Crop_type", "Elevation")]
        (DF.mk ["Field_ID", "Crop_type", "Elevation"]
          [[Value.int 1, Value.str "Corn", Value.int (-5)]])).bind
      (rename_columns [("Crop_type", "Elevation")]) =
      .ok (DF.mk ["Field_ID", "Crop_type", "Elevation"]
        [[Value.int 1, Value.str "Corn", Value.int (-5)]]) :=
  rename_columns_involution "Crop_type" "Elevation" [] _ (by decide) (by decide)

/-- Claim C4: after a successful `rename_columns` with both configured names
present, the data formerly under the first name appears under the second
name and vice versa, every other column's data is unchanged, the rows are
untouched, and the temporary placeholder name probed for the swap collides
with no existing column. -/
theorem rename_columns_swaps_data (c1 c2 : String) (rest : List (String × String))
    (df df2 : DF) (h1 : c1 ∈ df.cols) (h2 : c2 ∈ df.cols)
    (h : rename_columns ((c1, c2) :: rest) df = .ok df2) :
    df2.getColVals c2 = df.getColVals c1 ∧
    df2.getColVals c1 = df.getColVals c2 ∧
    (∀ c, c ≠ c1 → c ≠ c2 → df2.getColVals c = df.getColVals c) ∧
    df2.rows = df.rows ∧
    probeTemp df.cols "__temp_name_for_swap__" ∉ df.cols := by
  rw [rename_columns_eq_swap c1 c2 rest df h1 h2] at h
  injection h with h
  subst h
  refine ⟨?_, ?_, ?_, rfl, probeTemp_not_mem _ _⟩
  · have hx := getColVals_map_swap c1 c2 c1 df.cols df.rows
    rw [swapName_left] at hx
    exact hx
  · have hx := getColVals_map_swap c1 c2 c2 df.cols df.rows
    rw [swapName_right] at hx
    exact hx
  · intro c hc1 hc2
    have hx := getColVals_map_swap c1 c2 c df.cols df.rows
    rw [swapName_other hc1 hc2] at hx
    exact hx

/-- Claim C4 witness: the swap at a concrete three-column dataset. -/
theorem rename_columns_swaps_data_witness :
    (DF.mk ["Field_ID", "Elevation", "Crop_type"]
        [[Value.int 1, Value.str "Corn", Value.int (-5)]]).getColVals "Elevation" =
      (DF.mk ["Field_ID", "Crop_type", "Elevation"]
        [[Value.int 1, Value.str "Corn", Value.int (-5)]]).getColVals "Crop_type" ∧
    (DF.mk ["Field_ID", "Elevation", "Crop_type"]
        [[Value.int 1, Value.str "Corn", Value.int (-5)]]).getColVals "Crop_type" =
      (DF.mk ["Field_ID", "Crop_type", "Elevation"]
        [[Value.int 1, Value.str "Corn", Value.int (-5)]]).getColVals "Elevation" ∧
    (∀ c, c ≠ "Crop_type" → c ≠ "Elevation" →
      (DF.mk ["Field_ID", "Elevation", "Crop_type"]
          [[Value.int 1, Value.str "Corn", Value.int (-5)]]).getColVals c =
        (DF.mk ["Field_ID", "Crop_type", "Elevation"]
          [[Value.int 1, Value.str "Corn", Value.int (-5)]]).getColVals c) ∧
    (DF.mk ["Field_ID", "Elevation", "Crop_type"]
        [[Value.int 1, Value.str "Corn", Value.int (-5)]]).rows =
      (DF.mk ["Field_ID", "Crop_type", "Elevation"]
        [[Value.int 1, Value.str "Corn", Value.int (-5)]]).rows ∧
    probeTemp (DF.mk ["Field_ID", "Crop_type", "Elevation"]
        [[Value.int 1, Value.str "Corn", Value.int (-5)]]).cols
      "__temp_name_for_swap__" ∉
      (DF.mk ["Field_ID", "Crop_type", "Elevation"]
        [[Value.int 1, Value.str "Corn", Value.int (-5)]]).cols :=
  rename_columns_swaps_data "Crop_type" "Elevation" []
    (DF.mk ["Field_ID", "Crop_type", "Elevation"]
      [[Value.int 1, Value.str "Corn", Value.int (-5)]])
    (DF.mk ["Field_ID", "Elevation", "Crop_type"]
      [[Value.int 1, Value.str "Corn", Value.int (-5)]])
    (by decide) (by decide) rfl

/- ### The Correct stage: absolute value and categorical remap -/

/-- pandas `Series.abs` on one cell: absolute value of an integer, `NaN`
stays `NaN`, and a string cell raises a TypeError-kind error. -/
def valueAbs : Value → Except PErr Value
  | .int n => .ok (.int |n|)
  | .str _ => .error .typeError
  | .null => .ok .null

/-- `Series.abs` over a whole column. -/
def mapAbs : List Value → Except PErr (List Value)
  | [] => .ok []
  | v :: vs => do
    let w ← valueAbs v
    let ws ← mapAbs vs
    .ok (w :: ws)

/-- Python `self.values_to_rename.get(crop, crop)`: dictionary lookup with
the looked-up value itself as the default. -/
def lookupD : List (Value × Value) → Value → Value
  | [], v => v
  | (k, w) :: rest, v => if k = v then w else lookupD rest v

/-- Column assignment `df[name] = vals`: replace the named column in place
when it exists, else append a new column (in the pipeline the column always
exists and `vals` always has one entry per row). -/
def DF.setColVals (df : DF) (name : String) (vals : List Value) : DF :=
  match findIdx df.cols name with
  | some i => { df with rows := df.rows.zipWith (fun r v => r.set i v) vals }
  | none =>
    { cols := df.cols ++ [name],
      rows := df.rows.zipWith (fun r v => r ++ [v]) vals }

/-- `FieldDataProcessor.apply_corrections`: first replace the designated
numeric column by its absolute values, then remap the designated
categorical column through `values_to_rename` with identity fallback. -/
def apply_corrections (values_to_rename : List (Value × Value))
    (column_name abs_column : String) (df : DF) : Except PErr DF := do
  let absIn ← df.getColVals abs_column
  let absOut ← mapAbs absIn
  let df1 := df.setColVals abs_column absOut
  let remapIn ← df1.getColVals column_name
  .ok (df1.setColVals column_name (remapIn.map (lookupD values_to_rename)))

/- ### Index and column-update lemmas -/

theorem findIdx_lt {cols : List String} {n : String} {i : Nat} :
    findIdx cols n = some i → i < cols.length := by
  induction cols generalizing i with
  | nil =>
    intro h
    cases h
  | cons c cs ih =>
    intro h
    simp only [findIdx] at h
    split_ifs at h with hc
    · cases h
      simp
    · rcases Option.map_eq_some'.mp h with ⟨j, hj, rfl⟩
      have := ih hj
      simp only [List.length_cons]
      omega

theorem findIdx_getD {cols : List String} {n : String} {i : Nat} :
    findIdx cols n = some i → cols.getD i "" = n := by
  induction cols generalizing i with
  | nil =>
    intro h
    cases h
  | cons c cs ih =>
    intro h
    simp only [findIdx] at h
    split_ifs at h with hc
    · cases h
      simpa using hc
    · rcases Option.map_eq_some'.mp h with ⟨j, hj, rfl⟩
      simpa using ih hj

theorem findIdx_ne_of_name_ne {cols : List String} {n1 n2 : String} {i j : Nat}
    (hn : n1 ≠ n2) (h1 : findIdx cols n1 = some i)
    (h2 : findIdx cols n2 = some j) : i ≠ j := by
  intro he
  subst he
  exact hn ((findIdx_getD h1).symm.trans (findIdx_getD h2))

theorem getD_set_self (l : List Value) (j : Nat) (v : Value) (h : j < l.length) :
    (l.set j v).getD j Value.null = v := by
  induction l generalizing j with
  | nil => simp at h
  | cons a t ih =>
    cases j with
    | zero => rfl
    | succ j => exact ih j (by simpa using h)

theorem getD_set_ne (l : List Value) (i j : Nat) (v : Value) (h : i ≠ j) :
    (l.set j v).getD i Value.null = l.getD i Value.null := by
  induction l generalizing i j with
  | nil => rfl
  | cons a t ih =>
    cases j with
    | zero =>
      cases i with
      | zero => exact absurd rfl h
      | succ i => rfl
    | succ j =>
      cases i with
      | zero => rfl
      | succ i => exact ih i j (fun hh => h (by rw [hh]))

theorem map_getD_zipWith_set_self (rows : List (List Value)) (vals : List Value)
    (j : Nat) (hj : ∀ r ∈ rows, j < r.length) (hlen : vals.length = rows.length) :
    (List.zipWith (fun r v => r.set j v) rows vals).map
      (fun r => r.getD j Value.null) = vals := by
  induction rows generalizing vals with
  | nil =>
    cases vals with
    | nil => rfl
    | cons v vs => simp at hlen
  | cons r rs ih =>
    cases vals with
    | nil => simp at hlen
    | cons v vs =>
      simp only [List.zipWith_cons_cons, List.map_cons]
      rw [getD_set_self r j v (hj r (by simp)),
        ih vs (fun s hs => hj s (by simp [hs])) (by simpa using hlen)]

theorem map_getD_zipWith_set_ne (rows : List (List Value)) (vals : List Value)
    (i j : Nat) (hij : i ≠ j) (hlen : vals.length = rows.length) :
    (List.zipWith (fun r v => r.set j v) rows vals).map
      (fun r => r.getD i Value.null) =
      rows.map (fun r => r.getD i Value.null) := by
  induction rows generalizing vals with
  | nil => cases vals <;> rfl
  | cons r rs ih =>
    cases vals with
    | nil => simp at hlen
    | cons v vs =>
      simp only [List.zipWith_cons_cons, List.map_cons]
      rw [getD_set_ne r i j v hij, ih vs (by simpa using hlen)]

theorem mem_zipWith_set {rows : List (List Value)} {vals : List Value} {j : Nat}
    {r2 : List Value}
    (h : r2 ∈ List.zipWith (fun r v => r.set j v) rows vals) :
    ∃ r ∈ rows, ∃ v, r2 = r.set j v := by
  induction rows generalizing vals with
  | nil => simp at h
  | cons r rs ih =>
    cases vals with
    | nil => simp at h
    | cons v vs =>
      rcases List.mem_cons.mp h with h1 | h1
      · exact ⟨r, List.mem_cons_self r rs, v, h1⟩
      · rcases ih h1 with ⟨r0, hr0, v0, hv0⟩
        exact ⟨r0, List.mem_cons_of_mem r hr0, v0, hv0⟩

theorem setColVals_cols {df : DF} {name : String} {i : Nat}
    (h : findIdx df.cols name = some i) (vals : List Value) :
    (df.setColVals name vals).cols = df.cols := by
  unfold DF.setColVals
  rw [h]

theorem setColVals_rows {df : DF} {name : String} {i : Nat}
    (h : findIdx df.cols name = some i) (vals : List Value) :
    (df.setColVals name vals).rows =
      df.rows.zipWith (fun r v => r.set i v) vals := by
  unfold DF.setColVals
  rw [h]

/- ### `mapAbs` inversion lemmas -/

theorem mapAbs_cons_ok {v : Value} {vs : List Value} {l2 : List Value}
    (h : mapAbs (v :: vs) = .ok l2) :
    ∃ w ws, valueAbs v = .ok w ∧ mapAbs vs = .ok ws ∧ l2 = w :: ws := by
  cases hv : valueAbs v with
  | error e => simp [mapAbs, hv, bind, Except.bind] at h
  | ok w =>
    cases hvs : mapAbs vs with
    | error e => simp [mapAbs, hv, hvs, bind, Except.bind] at h
    | ok ws =>
      simp only [mapAbs, hv, hvs, bind, Except.bind, Except.ok.injEq] at h
      exact ⟨w, ws, rfl, rfl, h.symm⟩

theorem mapAbs_length {l l2 : List Value} :
    mapAbs l = .ok l2 → l2.length = l.length := by
  induction l generalizing l2 with
  | nil =>
    intro h
    cases h
    rfl
  | cons v vs ih =>
    intro h
    rcases mapAbs_cons_ok h with ⟨w, ws, hv, hvs, rfl⟩
    simp [ih hvs]

theorem mapAbs_getD {l l2 : List Value} (h : mapAbs l = .ok l2) :
    ∀ k, k < l.length →
      valueAbs (l.getD k Value.null) = .ok (l2.getD k Value.null) := by
  induction l generalizing l2 with
  | nil =>
    intro k hk
    simp at hk
  | cons v vs ih =>
    rcases mapAbs_cons_ok h with ⟨w, ws, hv, hvs, rfl⟩
    intro k hk
    cases k with
    | zero => simpa using hv
    | succ k => exact ih hvs k (by simpa using hk)

theorem mapAbs_mem {l l2 : List Value} (h : mapAbs l = .ok l2) :
    ∀ w ∈ l2, ∃ v ∈ l, valueAbs v = .ok w := by
  induction l generalizing l2 with
  | nil =>
    cases h
    intro w hw
    cases hw
  | cons v vs ih =>
    rcases mapAbs_cons_ok h with ⟨w0, ws, hv, hvs, rfl⟩
    intro w hw
    rcases List.mem_cons.mp hw with h1 | h1
    · exact ⟨v, List.mem_cons_self v vs, h1 ▸ hv⟩
    · rcases ih hvs w h1 with ⟨u, hu, hval⟩
      exact ⟨u, List.mem_cons_of_mem v hu, hval⟩

theorem lookupD_eq_lookup (m : List (Value × Value)) (v : Value) :
    lookupD m v = match m.lookup v with | some w => w | none => v := by
  induction m with
  | nil => rfl
  | cons p rest ih =>
    obtain ⟨k, w⟩ := p
    by_cases h : k = v
    · subst h
      simp [lookupD, List.lookup]
    · have hbeq : (v == k) = false := beq_eq_false_iff_ne.mpr (fun hh => h hh.symm)
      simp [lookupD, List.lookup, h, hbeq, ih]

/-- Successful-run shape of `apply_corrections`: with the two designated
columns present and the absolute-value pass succeeding, the stage returns
the doubly-updated dataset. -/
theorem apply_corrections_unfold (vtr : List (Value × Value)) (cn ac : String)
    (df : DF) {vout : List Value} {j : Nat}
    (hj : findIdx df.cols ac = some j)
    (hmap : mapAbs (df.rows.map (fun r => r.getD j Value.null)) = .ok vout)
    {i : Nat} (hi : findIdx df.cols cn = some i) :
    apply_corrections vtr cn ac df =
      .ok ((df.setColVals ac vout).setColVals cn
        (((df.setColVals ac vout).rows.map (fun r => r.getD i Value.null)).map
          (lookupD vtr))) := by
  have hcols : (df.setColVals ac vout).cols = df.cols := setColVals_cols hj vout
  unfold apply_corrections
  simp only [DF.getColVals, hj, bind, Except.bind, hmap, hcols, hi]

/-- Claim C5: after a successful Correct stage, every value of the
designated numeric column equals the mathematical absolute value of the
corresponding input value, and no value in that column is negative. -/
theorem apply_corrections_abs_column (vtr : List (Value × Value)) (cn ac : String)
    (df df2 : DF) (hW : df.WF) (hne : cn ≠ ac)
    (h : apply_corrections vtr cn ac df = .ok df2) :
    ∃ vin vout, df.getColVals ac = .ok vin ∧ df2.getColVals ac = .ok vout ∧
      vout.length = vin.length ∧
      (∀ k n, vin.getD k Value.null = Value.int n →
        vout.getD k Value.null = Value.int |n|) ∧
      (∀ w ∈ vout, ∀ n, w = Value.int n → 0 ≤ n) := by
  cases hj : findIdx df.cols ac with
  | none =>
    simp only [apply_corrections, DF.getColVals, hj, bind, Except.bind] at h
    exact Except.noConfusion h
  | some j =>
    cases hm : mapAbs (df.rows.map (fun r => r.getD j Value.null)) with
    | error e =>
      simp only [apply_corrections, DF.getColVals, hj, bind, Except.bind] at h
      rw [hm] at h
      exact Except.noConfusion h
    | ok vout =>
      cases hi : findIdx df.cols cn with
      | none =>
        simp only [apply_corrections, DF.getColVals, hj, bind, Except.bind] at h
        simp only [hm, setColVals_cols hj vout, hi] at h
        exact Except.noConfusion h
      | some i =>
        rw [apply_corrections_unfold vtr cn ac df hj hm hi] at h
        injection h with h
        subst h
        have hcols1 : (df.setColVals ac vout).cols = df.cols :=
          setColVals_cols hj vout
        have hi1 : findIdx (df.setColVals ac vout).cols cn = some i := by
          rw [hcols1]
          exact hi
        have hij : i ≠ j := findIdx_ne_of_name_ne hne hi hj
        have hvoutlen : vout.length = df.rows.length := by
          have := mapAbs_length hm
          simpa using this
        have hrows1 : (df.setColVals ac vout).rows =
            df.rows.zipWith (fun r v => r.set j v) vout := setColVals_rows hj vout
        have hrows1len : (df.setColVals ac vout).rows.length = df.rows.length := by
          rw [hrows1, List.length_zipWith, hvoutlen, Nat.min_self]
        have hj_lt : ∀ r ∈ df.rows, j < r.length := by
          intro r hr
          rw [hW r hr]
          exact findIdx_lt hj
        have hget1 : (df.setColVals ac vout).rows.map
            (fun r => r.getD j Value.null) = vout := by
          rw [hrows1]
          exact map_getD_zipWith_set_self df.rows vout j hj_lt hvoutlen
        refine ⟨df.rows.map (fun r => r.getD j Value.null), vout,
          by simp [DF.getColVals, hj], ?_, by simpa using mapAbs_length hm,
          ?_, ?_⟩
        · have hcols2 : ((df.setColVals ac vout).setColVals cn
              (((df.setColVals ac vout).rows.map
                (fun r => r.getD i Value.null)).map (lookupD vtr))).cols =
              df.cols := by
            rw [setColVals_cols hi1, hcols1]
          have hrows2 : ((df.setColVals ac vout).setColVals cn
              (((df.setColVals ac vout).rows.map
                (fun r => r.getD i Value.null)).map (lookupD vtr))).rows =
              (df.setColVals ac vout).rows.zipWith (fun r v => r.set i v)
                (((df.setColVals ac vout).rows.map
                  (fun r => r.getD i Value.null)).map (lookupD vtr)) :=
            setColVals_rows hi1 _
          simp only [DF.getColVals, hcols2, hj, hrows2]
          rw [map_getD_zipWith_set_ne _ _ j i (fun hh => hij hh.symm)
            (by simp), hget1]
        · intro k n hk
          by_cases hklt : k < (df.rows.map (fun r => r.getD j Value.null)).length
          · have := mapAbs_getD hm k hklt
            rw [hk] at this
            simp only [valueAbs] at this
            injection this with this
            exact this.symm
          · rw [List.getD_eq_default _ _ (by omega)] at hk
            cases hk
        · intro w hw n hn
          rcases mapAbs_mem hm w hw with ⟨v, hv, hval⟩
          cases v with
          | int m =>
            simp only [valueAbs] at hval
            injection hval with hval
            rw [← hval] at hn
            injection hn with hn
            rw [← hn]
            exact abs_nonneg m
          | str s => simp [valueAbs] at hval
          | null =>
            simp only [valueAbs] at hval
            injection hval with hval
            rw [← hval] at hn
            cases hn

/-- Claim C5 witness: a concrete two-row dataset with elevations -5 and 10. -/
theorem apply_corrections_abs_column_witness :
    ∃ vin vout,
      (DF.mk ["Crop_type", "Elevation"]
        [[Value.str "XYZ", Value.int (-5)],
         [Value.str "Corn", Value.int 10]]).getColVals "Elevation" = .ok vin ∧
      (DF.mk ["Crop_type", "Elevation"]
        [[Value.str "Wheat", Value.int 5],
         [Value.str "Corn", Value.int 10]]).getColVals "Elevation" = .ok vout ∧
      vout.length = vin.length ∧
      (∀ k n, vin.getD k Value.null = Value.int n →
        vout.getD k Value.null = Value.int |n|) ∧
      (∀ w ∈ vout, ∀ n, w = Value.int n → 0 ≤ n) :=
  apply_corrections_abs_column [(Value.str "XYZ", Value.str "Wheat")]
    "Crop_type" "Elevation"
    (DF.mk ["Crop_type", "Elevation"]
      [[Value.str "XYZ", Value.int (-5)], [Value.str "Corn", Value.int 10]])
    (DF.mk ["Crop_type", "Elevation"]
      [[Value.str "Wheat", Value.int 5], [Value.str "Corn", Value.int 10]])
    (by decide) (by decide) (by decide)

/-- Claim C6: once the absolute-value pass has succeeded and the designated
categorical column exists, the remap step cannot fail: the stage returns a
dataset whose categorical column is the input column mapped through the
lookup table, with values absent from the table left unchanged. -/
theorem apply_corrections_remap_column (vtr : List (Value × Value))
    (cn ac : String) (df : DF) (vout : List Value) (i j : Nat)
    (hW : df.WF) (hne : cn ≠ ac) (hj : findIdx df.cols ac = some j)
    (hmap : mapAbs (df.rows.map (fun r => r.getD j Value.null)) = .ok vout)
    (hi : findIdx df.cols cn = some i) :
    ∃ df2 cvals, apply_corrections vtr cn ac df = .ok df2 ∧
      df.getColVals cn = .ok cvals ∧
      df2.getColVals cn =
        .ok (cvals.map (fun v =>
          match vtr.lookup v with | some w => w | none => v)) := by
  have hcols1 : (df.setColVals ac vout).cols = df.cols := setColVals_cols hj vout
  have hi1 : findIdx (df.setColVals ac vout).cols cn = some i := by
    rw [hcols1]
    exact hi
  have hij : i ≠ j := findIdx_ne_of_name_ne hne hi hj
  have hvoutlen : vout.length = df.rows.length := by
    simpa using mapAbs_length hmap
  have hrows1 : (df.setColVals ac vout).rows =
      df.rows.zipWith (fun r v => r.set j v) vout := setColVals_rows hj vout
  have hget1cn : (df.setColVals ac vout).rows.map
      (fun r => r.getD i Value.null) =
      df.rows.map (fun r => r.getD i Value.null) := by
    rw [hrows1]
    exact map_getD_zipWith_set_ne df.rows vout i j hij hvoutlen
  have hW1 : (df.setColVals ac vout).WF := by
    intro r hr
    rw [hrows1] at hr
    rcases mem_zipWith_set hr with ⟨r0, hr0, v0, rfl⟩
    rw [List.length_set, hW r0 hr0, hcols1]
  have hi_lt : ∀ r ∈ (df.setColVals ac vout).rows, i < r.length := by
    intro r hr
    rw [hW1 r hr, hcols1]
    exact findIdx_lt hi
  refine ⟨_, df.rows.map (fun r => r.getD i Value.null),
    apply_corrections_unfold vtr cn ac df hj hmap hi,
    by simp [DF.getColVals, hi], ?_⟩
  have hcols2 : ((df.setColVals ac vout).setColVals cn
      (((df.setColVals ac vout).rows.map (fun r => r.getD i Value.null)).map
        (lookupD vtr))).cols = df.cols := by
    rw [setColVals_cols hi1, hcols1]
  have hrows2 : ((df.setColVals ac vout).setColVals cn
      (((df.setColVals ac vout).rows.map (fun r => r.getD i Value.null)).map
        (lookupD vtr))).rows =
      (df.setColVals ac vout).rows.zipWith (fun r v => r.set i v)
        (((df.setColVals ac vout).rows.map (fun r => r.getD i Value.null)).map
          (lookupD vtr)) := setColVals_rows hi1 _
  simp only [DF.getColVals, hcols2, hi, hrows2]
  rw [map_getD_zipWith_set_self _ _ i hi_lt (by simp), hget1cn]
  congr 1
  exact List.map_congr_left (fun v _ => lookupD_eq_lookup vtr v)

/-- Claim C6 witness: the remap at a concrete two-row dataset, hitting the
lookup key "XYZ" on one row and falling back to identity on "Corn". -/
theorem apply_corrections_remap_column_witness :
    ∃ df2 cvals,
      apply_corrections [(Value.str "XYZ", Value.str "Wheat")]
        "Crop_type" "Elevation"
        (DF.mk ["Crop_type", "Elevation"]
          [[Value.str "XYZ", Value.int (-5)],
           [Value.str "Corn", Value.int 10]]) = .ok df2 ∧
      (DF.mk ["Crop_type", "Elevation"]
        [[Value.str "XYZ", Value.int (-5)],
         [Value.str "Corn", Value.int 10]]).getColVals "Crop_type" =
        .ok cvals ∧
      df2.getColVals "Crop_type" =
        .ok (cvals.map (fun v =>
          match List.lookup v [(Value.str "XYZ", Value.str "Wheat")] with
          | some w => w
          | none => v)) :=
  apply_corrections_remap_column [(Value.str "XYZ", Value.str "Wheat")]
    "Crop_type" "Elevation"
    (DF.mk ["Crop_type", "Elevation"]
      [[Value.str "XYZ", Value.int (-5)], [Value.str "Corn", Value.int 10]])
    [Value.int 5, Value.int 10] 0 1
    (by decide) (by decide) (by decide) (by decide) (by decide)

/- ### Configuration, processor state, and the four-stage pipeline -/

/-- The `config_params` dictionary restricted to the five required keys;
an `Option` field is `none` when the key is absent from the dictionary. -/
structure ConfigParams where
  db_path : Option String
  sql_query : Option String
  columns_to_rename : Option (List (String × String))
  values_to_rename : Option (List (Value × Value))
  weather_mapping_csv : Option String
deriving DecidableEq

/-- The `FieldDataProcessor` instance state after a successful `__init__`. -/
structure Processor where
  db_path : String
  sql_query : String
  columns_to_rename : List (String × String)
  values_to_rename : List (Value × Value)
  weather_map_data : String
  df : Option DF
  engine : Option String
deriving DecidableEq

/-- Modelled from the spec: the external collaborators of `data_ingestion`
(`create_db_engine`, `query_data`, `read_from_web_CSV`) are opaque
capabilities; an environment fixes the outcome each of them would produce
when called (a value or a raised error kind). -/
structure Env where
  create_db_engine_result : Except PErr String
  query_data_result : Except PErr DF
  read_from_web_CSV_result : Except PErr DF

/-- `FieldDataProcessor.__init__`: read the five required configuration
keys in source order — a missing key raises a KeyError-kind immediately —
then start with no dataset and no engine. -/
def fieldDataProcessorInit (config_params : ConfigParams) :
    Except PErr Processor :=
  match config_params.db_path with
  | none => .error .keyError
  | some db_path =>
  match config_params.sql_query with
  | none => .error .keyError
  | some sql_query =>
  match config_params.columns_to_rename with
  | none => .error .keyError
  | some columns_to_rename =>
  match config_params.values_to_rename with
  | none => .error .keyError
  | some values_to_rename =>
  match config_params.weather_mapping_csv with
  | none => .error .keyError
  | some weather_map_data =>
  .ok { db_path, sql_query, columns_to_rename, values_to_rename,
        weather_map_data, df := none, engine := none }

/-- Claim C7: a configuration missing any of the five required keys makes
construction fail with a KeyError-kind error (fail-fast: no processor is
produced), and a successfully constructed processor has ingested nothing
(no dataset, no engine handle). -/
theorem init_requires_all_keys (cfg : ConfigParams) :
    ((cfg.db_path = none ∨ cfg.sql_query = none ∨
        cfg.columns_to_rename = none ∨ cfg.values_to_rename = none ∨
        cfg.weather_mapping_csv = none) →
      fieldDataProcessorInit cfg = .error PErr.keyError) ∧
    (∀ p, fieldDataProcessorInit cfg = .ok p →
      p.df = none ∧ p.engine = none) := by
  obtain ⟨db, q, ctr, vtr, wm⟩ := cfg
  constructor
  · intro h
    cases db <;> cases q <;> cases ctr <;> cases vtr <;> cases wm <;>
      first
      | rfl
      | (rcases h with h | h | h | h | h <;> cases h)
  · intro p hp
    cases db <;> cases q <;> cases ctr <;> cases vtr <;> cases wm <;>
      simp only [fieldDataProcessorInit] at hp <;> cases hp <;>
      exact ⟨rfl, rfl⟩

/-- Claim C7 witness: a configuration with every key but `sql_query`. -/
theorem init_requires_all_keys_witness :
    fieldDataProcessorInit
      (ConfigParams.mk (some "test.db") none (some [("A", "B")]) (some [])
        (some "http://example.com/wm.csv")) = .error PErr.keyError :=
  (init_requires_all_keys
    (ConfigParams.mk (some "test.db") none (some [("A", "B")]) (some [])
      (some "http://example.com/wm.csv"))).1 (Or.inr (Or.inl rfl))

/-- `self.df` access: the stages read the dataset attribute; before
ingestion it is `None`, and pandas operations on `None` raise an
AttributeError-kind. -/
def Processor.getDf (p : Processor) : Except PErr DF :=
  match p.df with
  | none => .error .attributeError
  | some df => .ok df

/-- `FieldDataProcessor.ingest_sql_data`: connect, run the query, store the
engine handle and the resulting table. -/
def Processor.ingest_sql_data (p : Processor) (env : Env) :
    Except PErr Processor := do
  let engine ← env.create_db_engine_result
  let df ← env.query_data_result
  .ok { p with engine := some engine, df := some df }

/-- The Rename stage as invoked on the instance state. -/
def Processor.rename_columns_stage (p : Processor) : Except PErr Processor := do
  let df ← p.getDf
  let df2 ← rename_columns p.columns_to_rename df
  .ok { p with df := some df2 }

/-- The Correct stage as invoked on the instance state (the `process`
pipeline uses the default arguments "Crop_type" and "Elevation"). -/
def Processor.apply_corrections_stage (p : Processor)
    (column_name abs_column : String) : Except PErr Processor := do
  let df ← p.getDf
  let df2 ← apply_corrections p.values_to_rename column_name abs_column df
  .ok { p with df := some df2 }

/-- Concatenation of the per-row output groups of a join. -/
def catLists : List (List (List Value)) → List (List Value)
  | [] => []
  | xs :: rest => xs ++ catLists rest

/-- pandas `df.merge(wm, on=key, how="left")`: requires the key on both
sides (else a `KeyError`); each left row is matched against the right rows
whose key cell equals its own; matched rows are concatenated with the
right row minus its key cell, unmatched rows are padded with nulls; shared
non-key column names receive the pandas suffixes. -/
def pdMerge_left (df wm : DF) (key : String) : Except PErr DF :=
  match findIdx df.cols key, findIdx wm.cols key with
  | some i, some j =>
    let rightCols := wm.cols.eraseIdx j
    .ok { cols :=
            df.cols.map (fun c =>
              if c ≠ key ∧ c ∈ rightCols then c ++ "_x" else c) ++
            rightCols.map (fun c =>
              if c ≠ key ∧ c ∈ df.cols then c ++ "_y" else c),
          rows := catLists (df.rows.map (fun r =>
            match wm.rows.filter
                (fun s => s.getD j Value.null == r.getD i Value.null) with
            | [] => [r ++ List.replicate rightCols.length Value.null]
            | m :: ms => (m :: ms).map (fun s => r ++ s.eraseIdx j))) }
  | _, _ => .error .keyError

/-- `FieldDataProcessor.weather_station_mapping` on a dataset: fetch the
weather-mapping table, rename the raw join-key column
`Weather_station_ID` to `Weather_station`, then left-join on `Field_ID`. -/
def weather_station_mapping (weather_map_fetch : Except PErr DF) (df : DF) :
    Except PErr DF := do
  let weather_mapping_df ← weather_map_fetch
  pdMerge_left (pdRename [("Weather_station_ID", "Weather_station")] df)
    weather_mapping_df "Field_ID"

/-- The Enrich stage as invoked on the instance state. -/
def Processor.weather_station_mapping_stage (p : Processor) (env : Env) :
    Except PErr Processor := do
  let df ← p.getDf
  let df2 ← weather_station_mapping env.read_from_web_CSV_result df
  .ok { p with df := some df2 }

/-- `FieldDataProcessor.process`: the four stages in fixed order, no error
handling in between. -/
def Processor.process (p : Processor) (env : Env) : Except PErr Processor := do
  let p1 ← p.ingest_sql_data env
  let p2 ← p1.rename_columns_stage
  let p3 ← p2.apply_corrections_stage "Crop_type" "Elevation"
  let p4 ← p3.weather_station_mapping_stage env
  .ok p4

/-- Claim C8: `process` runs exactly Ingest, Rename, Correct, Enrich in
that order: a failure of any stage is returned unchanged as the failure of
the whole pipeline and the later stages do not run, and when all four
stages succeed the pipeline returns the Enrich stage's result. -/
theorem process_fixed_order_propagates (p : Processor) (env : Env) :
    ((∀ e, p.ingest_sql_data env = .error e → p.process env = .error e) ∧
     (∀ p1 e, p.ingest_sql_data env = .ok p1 →
        p1.rename_columns_stage = .error e → p.process env = .error e) ∧
     (∀ p1 p2 e, p.ingest_sql_data env = .ok p1 →
        p1.rename_columns_stage = .ok p2 →
        p2.apply_corrections_stage "Crop_type" "Elevation" = .error e →
        p.process env = .error e) ∧
     (∀ p1 p2 p3 e, p.ingest_sql_data env = .ok p1 →
        p1.rename_columns_stage = .ok p2 →
        p2.apply_corrections_stage "Crop_type" "Elevation" = .ok p3 →
        p3.weather_station_mapping_stage env = .error e →
        p.process env = .error e) ∧
     (∀ p1 p2 p3 p4, p.ingest_sql_data env = .ok p1 →
        p1.rename_columns_stage = .ok p2 →
        p2.apply_corrections_stage "Crop_type" "Elevation" = .ok p3 →
        p3.weather_station_mapping_stage env = .ok p4 →
        p.process env = .ok p4)) := by
  refine ⟨?_, ?_, ?_, ?_, ?_⟩
  · intro e h1
    simp only [Processor.process, h1, bind, Except.bind]
  · intro p1 e h1 h2
    simp only [Processor.process, h1, h2, bind, Except.bind]
  · intro p1 p2 e h1 h2 h3
    simp only [Processor.process, h1, h2, h3, bind, Except.bind]
  · intro p1 p2 p3 e h1 h2 h3 h4
    simp only [Processor.process, h1, h2, h3, h4, bind, Except.bind]
  · intro p1 p2 p3 p4 h1 h2 h3 h4
    simp only [Processor.process, h1, h2, h3, h4, bind, Except.bind]

/-- Claim C8 witness: a failing engine connection aborts the pipeline with
that same error, on a concrete processor state. -/
theorem process_fixed_order_propagates_witness :
    (Processor.mk "test.db" "SELECT 1" [("A", "B")] [] "http://wm.csv"
        none none).process
      (Env.mk (.error .connectionError)
        (.ok (DF.mk [] [])) (.ok (DF.mk [] []))) =
      .error PErr.connectionError :=
  (process_fixed_order_propagates
    (Processor.mk "test.db" "SELECT 1" [("A", "B")] [] "http://wm.csv"
      none none)
    (Env.mk (.error .connectionError)
      (.ok (DF.mk [] [])) (.ok (DF.mk [] [])))).1
    PErr.connectionError rfl

/- ### Left-join lemmas and the Enrich-stage claims -/

theorem catLists_length_one (L : List (List (List Value)))
    (h : ∀ xs ∈ L, xs.length = 1) : (catLists L).length = L.length := by
  induction L with
  | nil => rfl
  | cons xs rest ih =>
    simp only [catLists, List.length_append, List.length_cons]
    have h1 := h xs (by simp)
    have h2 := ih (fun ys hys => h ys (by simp [hys]))
    omega

theorem mem_catLists {L : List (List (List Value))} {xs : List (List Value)}
    {x : List Value} (hxs : xs ∈ L) (hx : x ∈ xs) : x ∈ catLists L := by
  induction L with
  | nil => cases hxs
  | cons ys rest ih =>
    rcases List.mem_cons.mp hxs with h1 | h1
    · subst h1
      exact List.mem_append_left _ hx
    · exact List.mem_append_right _ (ih h1)

theorem filter_key_length_le_one {α β : Type} [DecidableEq β] (l : List α)
    (f : α → β) (k : β) (h : (l.map f).Nodup) :
    (l.filter (fun x => f x == k)).length ≤ 1 := by
  induction l with
  | nil => simp
  | cons a t ih =>
    simp only [List.map_cons, List.nodup_cons] at h
    simp only [List.filter_cons]
    by_cases hk : f a = k
    · rw [if_pos (by simp [hk])]
      have hfil : t.filter (fun x => f x == k) = [] := by
        refine List.filter_eq_nil_iff.mpr ?_
        intro b hb
        simp only [beq_iff_eq]
        intro hbk
        exact h.1 (by rw [hk, ← hbk]; exact List.mem_map_of_mem f hb)
      rw [hfil]
      simp
    · rw [if_neg (by simp [hk])]
      exact ih h.2

/-- Claim C9: if, after the Enrich stage's internal rename of
`Weather_station_ID` to `Weather_station`, the join key `Field_ID` is
absent from either the dataset's or the fetched weather-mapping table's
schema, `weather_station_mapping` fails with a KeyError-kind error. -/
theorem weather_station_mapping_missing_key (wm df : DF)
    (h : findIdx (pdRename [("Weather_station_ID", "Weather_station")] df).cols
          "Field_ID" = none ∨
        findIdx wm.cols "Field_ID" = none) :
    weather_station_mapping (.ok wm) df = .error PErr.keyError := by
  unfold weather_station_mapping pdMerge_left
  simp only [bind, Except.bind]
  rcases h with h | h
  · rw [h]
  · rw [h]
    cases findIdx (pdRename [("Weather_station_ID", "Weather_station")] df).cols
      "Field_ID" <;> rfl

/-- Claim C9 witness: a dataset without `Field_ID` against a well-formed
weather-mapping table. -/
theorem weather_station_mapping_missing_key_witness :
    weather_station_mapping (.ok (DF.mk ["Field_ID", "Weather_station"] []))
      (DF.mk ["Crop_type", "Elevation"] []) = .error PErr.keyError :=
  weather_station_mapping_missing_key
    (DF.mk ["Field_ID", "Weather_station"] [])
    (DF.mk ["Crop_type", "Elevation"] []) (Or.inl rfl)

/-- Claim C1: when both sides carry the `Field_ID` join key and the fetched
weather-mapping table is keyed by it (no duplicate key values), the Enrich
stage succeeds, preserves the row count exactly, drops no input row (each
reappears extended with the reference cells), and every input row without
a matching key reappears padded with nulls in the reference columns. -/
theorem weather_station_mapping_preserves_rows (wm df : DF) (i j : Nat)
    (hi : findIdx (pdRename [("Weather_station_ID", "Weather_station")] df).cols
      "Field_ID" = some i)
    (hj : findIdx wm.cols "Field_ID" = some j)
    (hnd : (wm.rows.map (fun s => s.getD j Value.null)).Nodup) :
    ∃ df2, weather_station_mapping (.ok wm) df = .ok df2 ∧
      df2.rows.length = df.rows.length ∧
      (∀ r ∈ df.rows, ∃ ext, r ++ ext ∈ df2.rows) ∧
      (∀ r ∈ df.rows,
        wm.rows.filter
          (fun s => s.getD j Value.null == r.getD i Value.null) = [] →
        r ++ List.replicate (wm.cols.eraseIdx j).length Value.null ∈
          df2.rows) := by
  unfold weather_station_mapping pdMerge_left
  simp only [bind, Except.bind, hi, hj]
  refine ⟨_, rfl, ?_, ?_, ?_⟩
  · refine catLists_length_one _ ?_ |>.trans (List.length_map _ _)
    intro xs hxs
    rcases List.mem_map.mp hxs with ⟨r, hr, rfl⟩
    cases hfil : wm.rows.filter
        (fun s => s.getD j Value.null == r.getD i Value.null) with
    | nil => rfl
    | cons m ms =>
      have hle := filter_key_length_le_one wm.rows
        (fun s => s.getD j Value.null) (r.getD i Value.null) hnd
      rw [hfil] at hle
      simp only [List.length_cons] at hle
      have hms : ms = [] := List.eq_nil_of_length_eq_zero (by omega)
      subst hms
      rfl
  · intro r hr
    cases hfil : wm.rows.filter
        (fun s => s.getD j Value.null == r.getD i Value.null) with
    | nil =>
      refine ⟨List.replicate (wm.cols.eraseIdx j).length Value.null,
        mem_catLists (List.mem_map_of_mem _ hr) ?_⟩
      simp only [hfil]
      exact List.mem_singleton.mpr rfl
    | cons m ms =>
      refine ⟨m.eraseIdx j, mem_catLists (List.mem_map_of_mem _ hr) ?_⟩
      simp only [hfil]
      exact List.mem_map_of_mem _ (List.mem_cons_self m ms)
  · intro r hr hfil
    refine mem_catLists (List.mem_map_of_mem _ hr) ?_
    simp only [hfil]
    exact List.mem_singleton.mpr rfl

/-- Claim C1 witness: a two-row dataset joined against a two-entry
weather-mapping table in which `Field_ID` 1 matches and 3 does not. -/
theorem weather_station_mapping_preserves_rows_witness :
    ∃ df2,
      weather_station_mapping
        (.ok (DF.mk ["Field_ID", "Weather_station"]
          [[Value.int 1, Value.str "Station-A"],
           [Value.int 2, Value.str "Station-B"]]))
        (DF.mk ["Field_ID", "Weather_station_ID"]
          [[Value.int 1, Value.str "WS1"],
           [Value.int 3, Value.str "WS3"]]) = .ok df2 ∧
      df2.rows.length =
        (DF.mk ["Field_ID", "Weather_station_ID"]
          [[Value.int 1, Value.str "WS1"],
           [Value.int 3, Value.str "WS3"]]).rows.length ∧
      (∀ r ∈ (DF.mk ["Field_ID", "Weather_station_ID"]
          [[Value.int 1, Value.str "WS1"],
           [Value.int 3, Value.str "WS3"]]).rows, ∃ ext, r ++ ext ∈ df2.rows) ∧
      (∀ r ∈ (DF.mk ["Field_ID", "Weather_station_ID"]
          [[Value.int 1, Value.str "WS1"],
           [Value.int 3, Value.str "WS3"]]).rows,
        (DF.mk ["Field_ID", "Weather_station"]
          [[Value.int 1, Value.str "Station-A"],
           [Value.int 2, Value.str "Station-B"]]).rows.filter
          (fun s => s.getD 0 Value.null == r.getD 0 Value.null) = [] →
        r ++ List.replicate
          ((DF.mk ["Field_ID", "Weather_station"]
            [[Value.int 1, Value.str "Station-A"],
             [Value.int 2, Value.str "Station-B"]]).cols.eraseIdx 0).length
          Value.null ∈ df2.rows) :=
  weather_station_mapping_preserves_rows
    (DF.mk ["Field_ID", "Weather_station"]
      [[Value.int 1, Value.str "Station-A"],
       [Value.int 2, Value.str "Station-B"]])
    (DF.mk ["Field_ID", "Weather_station_ID"]
      [[Value.int 1, Value.str "WS1"], [Value.int 3, Value.str "WS3"]])
    0 0 (by decide) (by decide) (by decide)
